import Mathlib

/-!
Verification development for the Gravwell Kinesis/SQS ingesters.

The definitions below are a shallow embedding of the two source files:

* `src/unnamed/part_000` - the Kinesis ingester (`main`, per-shard goroutine,
  `stateman`, `shardMetrics`); modelled in namespace `KinesisIngest`.
* `src/ingesters/sqsIngester/main.go` - the SQS ingester (`queueRunner`);
  modelled in namespace `SqsIngest`.

Go maps of type `map[string]V` are modelled as association lists
`List (String × V)`; `alookup` is map indexing (returning `none` for a
missing key, where Go returns the zero value) and `aset` is map assignment.
Effects that the claims talk about (entries handed to the processor, sleeps,
checkpoint writes, GetRecords requests) are recorded in explicit event
traces.
-/

set_option maxHeartbeats 1000000

/-- Go `map[string]V` indexing, `none` when the key is absent. -/
def alookup {α : Type} : List (String × α) → String → Option α
  | [], _ => none
  | (k, v) :: rest, key => if k = key then some v else alookup rest key

/-- Go `map[string]V` assignment `m[key] = v` (replace or append). -/
def aset {α : Type} : List (String × α) → String → α → List (String × α)
  | [], key, v => [(key, v)]
  | (k, w) :: rest, key, v =>
    if k = key then (k, v) :: rest else (k, w) :: aset rest key v

theorem alookup_aset_self {α : Type} (l : List (String × α)) (k : String) (v : α) :
    alookup (aset l k v) k = some v := by
  induction l with
  | nil => simp [aset, alookup]
  | cons p rest ih =>
    obtain ⟨k1, w⟩ := p
    by_cases h : k1 = k
    · simp [aset, alookup, h]
    · simp [aset, alookup, h, ih]

/-- Model of both `time.Time` and gravwell `entry.Timestamp` values
(`entry.FromStandard` is the identity in this model). -/
structure Timestamp where
  sec : Int
  nsec : Int
deriving DecidableEq, Repr

namespace KinesisIngest

/-- One `kinesis.Record` (the fields the ingester reads: `SequenceNumber`,
`ApproximateArrivalTimestamp`, `Data`). Payload bytes are `List Nat`. -/
structure KRecord where
  SequenceNumber : String
  ApproximateArrivalTimestamp : Timestamp
  Data : List Nat
deriving DecidableEq, Repr

/-- `kinesis.GetRecordsOutput` (fields read by the ingester). -/
structure GetRecordsOutput where
  Records : List KRecord
  NextShardIterator : Option String
  MillisBehindLatest : Int
deriving DecidableEq, Repr

/-- Gravwell `entry.Entry` (fields the ingester sets: Tag, SRC, TS, Data). -/
structure Entry where
  Tag : Nat
  SRC : Option String
  TS : Timestamp
  Data : List Nat
deriving DecidableEq, Repr

/-- The checkpoint map: stream name -> shard name -> sequence number
(source comment: "map of stream name to shard name to sequence number"). -/
abbrev StateMap := List (String × List (String × String))

/-- `stateman` (part_000 lines 507-511).  `states` is the in-memory shared
map; `stateFile` is the durable snapshot written by `Flush`
(`utils.State.Write`), i.e. what survives a crash. -/
structure stateman where
  states : StateMap
  stateFile : StateMap
deriving DecidableEq, Repr

/-- `stateman.Flush` (lines 537-541): persists the whole in-memory map. -/
def stateman.Flush (s : stateman) : stateman :=
  { s with stateFile := s.states }

/-- `stateman.UpdateSequenceNum` (lines 543-553): lazily create the inner
map for the stream, then assign the shard's sequence number. -/
def stateman.UpdateSequenceNum (s : stateman) (stream shard seq : String) : stateman :=
  let inner := (alookup s.states stream).getD []
  { s with states := aset s.states stream (aset inner shard seq) }

/-- `stateman.GetSequenceNum` (lines 555-565): if the stream has no entry,
insert an empty inner map (a mutation!), then return the shard's sequence
number, `""` (Go's zero value) when absent. -/
def stateman.GetSequenceNum (s : stateman) (stream shard : String) : stateman × String :=
  match alookup s.states stream with
  | none => ({ s with states := aset s.states stream [] }, "")
  | some inner => (s, (alookup inner shard).getD "")

/-- Two-level lookup into a `StateMap`. -/
def alookup2 (m : StateMap) (stream shard : String) : Option String :=
  match alookup m stream with
  | none => none
  | some inner => alookup inner shard

theorem alookup2_update (s : stateman) (stream shard v : String) :
    alookup2 (s.UpdateSequenceNum stream shard v).states stream shard = some v := by
  simp [stateman.UpdateSequenceNum, alookup2, alookup_aset_self]

/-- The token recoverable from durable checkpoint state (the flushed file). -/
def persistedToken (s : stateman) (stream shard : String) : Option String :=
  alookup2 s.stateFile stream shard

/-- uint64 wrap-around bound. -/
def u64lim : Nat := 18446744073709551616

/-- Sum of `len(res.Records[i].Data)` (lines 487-489). -/
def recordsDataSize : List KRecord → Nat
  | [] => 0
  | r :: rs => r.Data.length + recordsDataSize rs

/-- `shardMetrics` (lines 469-476): per-shard counters.  `millisbehind` is
the lag estimate; `datasize`/`entrysize`/`requests` are the uint64 counters. -/
structure shardMetrics where
  Disabled : Bool
  millisbehind : Int
  datasize : Nat
  entrysize : Nat
  requests : Nat
deriving DecidableEq, Repr

/-- `shardMetrics.Update` (lines 478-492). -/
def shardMetrics.Update (s : shardMetrics) (res : GetRecordsOutput) (entrySize : Nat) :
    shardMetrics :=
  if s.Disabled then s
  else
    { s with
      millisbehind := res.MillisBehindLatest,
      requests := (s.requests + 1) % u64lim,
      datasize := (s.datasize + recordsDataSize res.Records) % u64lim,
      entrysize := (s.entrysize + entrySize) % u64lim }

/-- `shardMetrics.ReadAndReset` (lines 494-505): return all four counters,
zero the three throughput counters, keep `millisbehind`. -/
def shardMetrics.ReadAndReset (s : shardMetrics) :
    (Int × Nat × Nat × Nat) × shardMetrics :=
  ((s.millisbehind, s.datasize, s.entrysize, s.requests),
   { s with datasize := 0, entrysize := 0, requests := 0 })

/-- Observable actions of the per-shard goroutine, in program order. -/
inductive Event where
  | request (iter : String)
  | sleep (ms : Nat)
  | processed (e : Entry)
  | checkpointWrite (stream shard seq : String)
deriving DecidableEq, Repr

/-- Per-shard immutable context: the tag resolved for the stream, the source
override, the stream/shard names, the external `entry.Entry.Size` function
(only fed to the metrics counters) and the timegrinder.  `tg r.Data = some t`
models `tg.Extract` returning `(t, true, nil)`; `none` models `!ok || err != nil`. -/
structure ShardCtx where
  tagid : Nat
  src : Option String
  streamName : String
  shardId : String
  entSize : Entry → Nat
  tg : List Nat → Option Timestamp

/-- Mutable state of one `for running` streaming session (lines 359-429):
the per-goroutine `stream.Parse_Time` copy, `lastSeqNum`, the per-batch
`entrySize` accumulator, the shared `stateman`, the shard's metrics tracker,
and the trace of observable events. -/
structure ShardState where
  parseTime : Bool
  lastSeqNum : String
  entrySize : Nat
  sm : stateman
  tracker : shardMetrics
  events : List Event
deriving DecidableEq, Repr

/-- Timestamp selection for one record (lines 407-418): with time-parsing
off use the record's arrival timestamp; otherwise consult the timegrinder,
and on failure permanently switch time-parsing off and fall back. -/
def recordTS (ctx : ShardCtx) (pt : Bool) (r : KRecord) : Bool × Timestamp :=
  if pt = false then (pt, r.ApproximateArrivalTimestamp)
  else
    match ctx.tg r.Data with
    | none => (false, r.ApproximateArrivalTimestamp)
    | some t => (pt, t)

/-- Body of the record loop (lines 400-423): remember the sequence number,
build the entry, hand it to the processor (a `ProcessContext` error is only
logged, the loop continues), accumulate `entrySize`. -/
def processRecord (ctx : ShardCtx) (st : ShardState) (r : KRecord) : ShardState :=
  let pts := recordTS ctx st.parseTime r
  let ent : Entry := { Tag := ctx.tagid, SRC := ctx.src, TS := pts.2, Data := r.Data }
  { st with
    parseTime := pts.1,
    lastSeqNum := r.SequenceNumber,
    entrySize := st.entrySize + ctx.entSize ent,
    events := st.events ++ [Event.processed ent] }

/-- Lines 399-428: process every record of the batch, update the metrics
tracker, then (only if `lastSeqNum` is non-empty) write the checkpoint. -/
def processBatch (ctx : ShardCtx) (st : ShardState) (res : GetRecordsOutput) : ShardState :=
  let st1 := res.Records.foldl (processRecord ctx) { st with entrySize := 0 }
  let st2 := { st1 with tracker := st1.tracker.Update res st1.entrySize }
  if st2.lastSeqNum = "" then st2
  else
    { st2 with
      sm := st2.sm.UpdateSequenceNum ctx.streamName ctx.shardId st2.lastSeqNum,
      events := st2.events ++
        [Event.checkpointWrite ctx.streamName ctx.shardId st2.lastSeqNum] }

/-- One iteration of the `for running` loop whose fetch succeeds on the
first attempt; the 100ms idle sleep on an empty batch happens inside the
fetch loop (lines 391-394), before the (vacuous) record loop. -/
def streamStep (ctx : ShardCtx) (st : ShardState) (res : GetRecordsOutput) : ShardState :=
  let st1 :=
    if res.Records.isEmpty then { st with events := st.events ++ [Event.sleep 100] }
    else st
  processBatch ctx st1 res

/-- N successive successful iterations of the streaming loop. -/
def runBatches (ctx : ShardCtx) (st : ShardState) (bs : List GetRecordsOutput) : ShardState :=
  bs.foldl (streamStep ctx) st

/-- Error classification of a failed `GetRecords` call (lines 373-389). -/
inductive ErrClass where
  | throughput
  | expiredIter
  | otherAws
  | unknownErr
deriving DecidableEq, Repr

/-- One scripted outcome of `svc.GetRecords(gri)`: either a successful
output, or an error of some class together with the (possibly nil) output
the SDK returned alongside it. -/
inductive Attempt where
  | ok (res : GetRecordsOutput)
  | fail (e : ErrClass) (res : Option GetRecordsOutput)
deriving DecidableEq, Repr

/-- Local state of the inner `for` retry loop (lines 366-397): the `iter`
variable and the event trace. -/
structure FetchState where
  iter : String
  events : List Event
deriving DecidableEq, Repr

/-- `if res.NextShardIterator != nil { iter = *res.NextShardIterator }`. -/
def updIter (i : String) (next : Option String) : String :=
  match next with
  | some j => j
  | none => i

def resNextIter : Option GetRecordsOutput → Option String
  | none => none
  | some r => r.NextShardIterator

/-- How the inner retry loop ends: a successful batch (`break`), an
expired-iterator error (`continue reconnectLoop`), or the script of
outcomes ran out while the loop would keep retrying. -/
inductive FetchOut where
  | success (res : GetRecordsOutput) (fs : FetchState)
  | reconnect (fs : FetchState)
  | pending (fs : FetchState)
deriving DecidableEq, Repr

/-- The inner `GetRecords` retry loop (lines 361-397).  `griIter` is the
iterator stored in `gri` before the loop; the request object is never
rebuilt inside the loop, so every attempt sends `griIter`.  Throughput
errors sleep 500ms and retry; expired iterators sleep 100ms and exit to the
reconnect loop; other AWS errors sleep 500ms and retry; non-AWS errors
retry immediately.  An empty successful batch sleeps 100ms before breaking. -/
def fetchLoop (griIter : String) (fs : FetchState) : List Attempt → FetchOut
  | [] => FetchOut.pending fs
  | Attempt.ok res :: _ =>
    let ev0 := fs.events ++ [Event.request griIter]
    let it1 := updIter fs.iter res.NextShardIterator
    let ev1 := if res.Records.isEmpty then ev0 ++ [Event.sleep 100] else ev0
    FetchOut.success res { iter := it1, events := ev1 }
  | Attempt.fail e r :: rest =>
    let ev0 := fs.events ++ [Event.request griIter]
    let it1 := updIter fs.iter (resNextIter r)
    match e with
    | ErrClass.throughput =>
      fetchLoop griIter { iter := it1, events := ev0 ++ [Event.sleep 500] } rest
    | ErrClass.expiredIter =>
      FetchOut.reconnect { iter := it1, events := ev0 ++ [Event.sleep 100] }
    | ErrClass.otherAws =>
      fetchLoop griIter { iter := it1, events := ev0 ++ [Event.sleep 500] } rest
    | ErrClass.unknownErr =>
      fetchLoop griIter { iter := it1, events := ev0 } rest

/-- `kinesis.GetShardIteratorInput` (the fields the ingester sets besides
the stream and shard names). -/
structure GetShardIteratorInput where
  ShardIteratorType : String
  StartingSequenceNumber : Option String
deriving DecidableEq, Repr

/-- Head of `reconnectLoop` (lines 332-343): look the sequence number up in
the (shared, in-memory) `stateman`; absent means use the configured default
iterator type, present means request `AFTER_SEQUENCE_NUMBER` from it. -/
def buildIteratorRequest (sm : stateman) (streamName shardId iteratorType : String) :
    stateman × GetShardIteratorInput :=
  let gs := sm.GetSequenceNum streamName shardId
  if gs.2 = "" then
    (gs.1, { ShardIteratorType := iteratorType, StartingSequenceNumber := none })
  else
    (gs.1, { ShardIteratorType := "AFTER_SEQUENCE_NUMBER",
             StartingSequenceNumber := some gs.2 })

/-- `kinesis.SequenceNumberRange` (the field the ingester reads). -/
structure SequenceNumberRange where
  EndingSequenceNumber : Option String
deriving DecidableEq, Repr

/-- `kinesis.Shard` (the fields the ingester reads). -/
structure KShard where
  ShardId : String
  SequenceNumberRange : Option SequenceNumberRange
deriving DecidableEq, Repr

/-- The closed-shard test (lines 281-284): a shard is skipped iff its
sequence-number range has an ending sequence number. -/
def shardClosed (s : KShard) : Bool :=
  match s.SequenceNumberRange with
  | none => false
  | some r => r.EndingSequenceNumber.isSome

/-- Number of `shardMetrics` trackers appended to `metricsTrackers`: one per
shard goroutine, and goroutines are spawned only for non-closed shards
(lines 279-324). -/
def spawnedTrackerCount (shards : List KShard) : Nat :=
  (shards.filter (fun s => !shardClosed s)).length

/-- The divisor of `report.AverageLag / int64(len(metricsTrackers))` in the
metrics reporter goroutine (line 265). -/
def metricsTickDivisor (shards : List KShard) : Int :=
  Int.ofNat (spawnedTrackerCount shards)

/-- The `Parse_Time` flag after running the record loop over `rs`. -/
def ptAfter (ctx : ShardCtx) : Bool → List KRecord → Bool
  | pt, [] => pt
  | pt, r :: rs => ptAfter ctx (recordTS ctx pt r).1 rs

/-- The `lastSeqNum` variable after running the record loop over `rs`,
starting from default `d`. -/
def lastSeqAfter : List KRecord → String → String
  | [], d => d
  | r :: rs, _ => lastSeqAfter rs r.SequenceNumber

/-- The entries the record loop builds from `rs`, starting with parse flag
`pt`. -/
def recordEntries (ctx : ShardCtx) : Bool → List KRecord → List Entry
  | _, [] => []
  | pt, r :: rs =>
    let pts := recordTS ctx pt r
    { Tag := ctx.tagid, SRC := ctx.src, TS := pts.2, Data := r.Data } ::
      recordEntries ctx pts.1 rs

/-- Sum of entry sizes. -/
def entriesSize (f : Entry → Nat) : List Entry → Nat
  | [] => 0
  | e :: es => f e + entriesSize f es

/-- The last element of a record batch. -/
def lastRecord : List KRecord → Option KRecord
  | [] => none
  | [r] => some r
  | _ :: r :: rs => lastRecord (r :: rs)

theorem foldRecords_eq (ctx : ShardCtx) (st : ShardState) (rs : List KRecord) :
    rs.foldl (processRecord ctx) st =
      { parseTime := ptAfter ctx st.parseTime rs,
        lastSeqNum := lastSeqAfter rs st.lastSeqNum,
        entrySize := st.entrySize + entriesSize ctx.entSize (recordEntries ctx st.parseTime rs),
        sm := st.sm,
        tracker := st.tracker,
        events := st.events ++ (recordEntries ctx st.parseTime rs).map Event.processed } := by
  induction rs generalizing st with
  | nil => simp [ptAfter, lastSeqAfter, recordEntries, entriesSize]
  | cons r rs ih =>
    simp only [List.foldl_cons, ih, processRecord, ptAfter, lastSeqAfter, recordEntries,
      entriesSize, List.map_cons, List.append_assoc, List.cons_append, List.nil_append,
      Nat.add_assoc]

theorem lastSeqAfter_lastRecord (rs : List KRecord) (r : KRecord) (d : String)
    (h : lastRecord rs = some r) : lastSeqAfter rs d = r.SequenceNumber := by
  induction rs generalizing d with
  | nil => simp [lastRecord] at h
  | cons r0 rs ih =>
    cases rs with
    | nil =>
      simp [lastRecord] at h
      simp [lastSeqAfter, h]
    | cons r1 rs1 =>
      have h1 : lastRecord (r1 :: rs1) = some r := h
      have h2 := ih r0.SequenceNumber h1
      simpa [lastSeqAfter] using h2

theorem lastRecord_ne_nil (rs : List KRecord) (r : KRecord)
    (h : lastRecord rs = some r) : rs ≠ [] := by
  intro hnil
  subst hnil
  simp [lastRecord] at h

theorem ptAfter_false (ctx : ShardCtx) (rs : List KRecord) :
    ptAfter ctx false rs = false := by
  induction rs with
  | nil => simp [ptAfter]
  | cons r rs ih => simp [ptAfter, recordTS, ih]

theorem recordEntries_false (ctx : ShardCtx) (rs : List KRecord) :
    recordEntries ctx false rs =
      rs.map (fun r =>
        { Tag := ctx.tagid, SRC := ctx.src,
          TS := r.ApproximateArrivalTimestamp, Data := r.Data }) := by
  induction rs with
  | nil => simp [recordEntries]
  | cons r rs ih => simp [recordEntries, recordTS, ih]

theorem recordEntries_length (ctx : ShardCtx) (pt : Bool) (rs : List KRecord) :
    (recordEntries ctx pt rs).length = rs.length := by
  induction rs generalizing pt with
  | nil => simp [recordEntries]
  | cons r rs ih => simp [recordEntries, ih]

theorem recordEntries_data (ctx : ShardCtx) (pt : Bool) (rs : List KRecord) :
    (recordEntries ctx pt rs).map Entry.Data = rs.map KRecord.Data := by
  induction rs generalizing pt with
  | nil => simp [recordEntries]
  | cons r rs ih => simp [recordEntries, ih]

end KinesisIngest

namespace SqsIngest

/-- Go `strconv.ParseInt(s, 10, 64)` collapsed to an `Option`: a decimal
integer within the int64 range, `none` on any parse error. -/
def parseInt64 (s : String) : Option Int :=
  match s.toInt? with
  | none => none
  | some n => if n < -(2 ^ 63) ∨ 2 ^ 63 ≤ n then none else some n

/-- One `sqs.Message` (the fields `queueRunner` reads: `Body` and the
`Attributes` map). -/
structure SqsMessage where
  Body : String
  Attributes : List (String × String)
deriving DecidableEq, Repr

/-- Gravwell `entry.Entry` as built by `queueRunner` (Data is the message
body bytes, kept as the body string). -/
structure SEntry where
  SRC : Option String
  TS : Timestamp
  Tag : Nat
  Data : String
deriving DecidableEq, Repr

/-- Observable actions of the `queueRunner` message loop (main.go lines
320-352), in program order. -/
inductive QEvent where
  | logMissingTimestamp
  | logParseIntError (t : String)
  | handed (e : SEntry)
  | logProcessError
deriving DecidableEq, Repr

/-- Per-queue context from `handlerConfig`: the `Ignore-Timestamps` flag,
source override, tag, the value `entry.Now()` would return, and the
processor (`proc.ProcessContext` collapsed to `true` = nil error). -/
structure QCtx where
  ignoreTimestamps : Bool
  src : Option String
  tag : Nat
  now : Timestamp
  proc : SEntry → Bool

/-- Timestamp selection for one message (main.go lines 323-339): with
`ignoreTimestamps` false, read the `SentTimestamp` attribute; a missing
attribute or a parse failure is logged and leaves `ts` at its zero value.
With `ignoreTimestamps` true, use the current time. -/
def messageTS (ctx : QCtx) (m : SqsMessage) : Timestamp × List QEvent :=
  if ctx.ignoreTimestamps then (ctx.now, [])
  else
    match alookup m.Attributes "SentTimestamp" with
    | none => ({ sec := 0, nsec := 0 }, [QEvent.logMissingTimestamp])
    | some t =>
      match parseInt64 t with
      | none => ({ sec := 0, nsec := 0 }, [QEvent.logParseIntError t])
      | some ut => ({ sec := Int.tdiv ut 1000, nsec := 0 }, [])

/-- The entry built for one message (main.go lines 341-346), together with
the log events its timestamp selection produced. -/
def mkEntry (ctx : QCtx) (m : SqsMessage) : SEntry × List QEvent :=
  ({ SRC := ctx.src, TS := (messageTS ctx m).1, Tag := ctx.tag, Data := m.Body },
   (messageTS ctx m).2)

/-- The message loop of `queueRunner` (main.go lines 320-352): build and
hand each entry to the processor; a `ProcessContext` error is logged and the
whole task returns (second component `true` = aborted). -/
def handleMessages (ctx : QCtx) : List SqsMessage → List QEvent × Bool
  | [] => ([], false)
  | m :: rest =>
    let e := mkEntry ctx m
    if ctx.proc e.1 then
      ((e.2 ++ [QEvent.handed e.1]) ++ (handleMessages ctx rest).1,
       (handleMessages ctx rest).2)
    else (e.2 ++ [QEvent.handed e.1, QEvent.logProcessError], true)

/-- The trace produced by a run of the loop in which every entry is
accepted by the processor. -/
def handledTrace (ctx : QCtx) : List SqsMessage → List QEvent
  | [] => []
  | m :: rest =>
    (mkEntry ctx m).2 ++ [QEvent.handed (mkEntry ctx m).1] ++ handledTrace ctx rest

/-- `true` iff the processor accepts the entry of every message in the list. -/
def allOk (ctx : QCtx) : List SqsMessage → Bool
  | [] => true
  | m :: rest => ctx.proc (mkEntry ctx m).1 && allOk ctx rest

end SqsIngest

namespace KinesisIngest

theorem streamStep_nonempty (ctx : ShardCtx) (st : ShardState) (b : GetRecordsOutput)
    (rlast : KRecord) (hlast : lastRecord b.Records = some rlast)
    (hseq : rlast.SequenceNumber ≠ "") :
    streamStep ctx st b =
      { parseTime := ptAfter ctx st.parseTime b.Records,
        lastSeqNum := rlast.SequenceNumber,
        entrySize := entriesSize ctx.entSize (recordEntries ctx st.parseTime b.Records),
        sm := st.sm.UpdateSequenceNum ctx.streamName ctx.shardId rlast.SequenceNumber,
        tracker := st.tracker.Update b
          (entriesSize ctx.entSize (recordEntries ctx st.parseTime b.Records)),
        events := st.events
          ++ (recordEntries ctx st.parseTime b.Records).map Event.processed
          ++ [Event.checkpointWrite ctx.streamName ctx.shardId rlast.SequenceNumber] } := by
  have hne := lastRecord_ne_nil b.Records rlast hlast
  have hempty : b.Records.isEmpty = false := by
    cases h : b.Records with
    | nil => exact absurd h hne
    | cons a l => rfl
  have hlseq : lastSeqAfter b.Records st.lastSeqNum = rlast.SequenceNumber :=
    lastSeqAfter_lastRecord _ _ _ hlast
  simp [streamStep, hempty, processBatch, foldRecords_eq, hlseq, hseq, List.append_assoc]

theorem streamStep_empty_eq (ctx : ShardCtx) (st : ShardState) (res : GetRecordsOutput)
    (h : res.Records = []) :
    streamStep ctx st res =
      if st.lastSeqNum = "" then
        { st with entrySize := 0,
                  tracker := st.tracker.Update res 0,
                  events := st.events ++ [Event.sleep 100] }
      else
        { st with entrySize := 0,
                  tracker := st.tracker.Update res 0,
                  sm := st.sm.UpdateSequenceNum ctx.streamName ctx.shardId st.lastSeqNum,
                  events := st.events ++ [Event.sleep 100,
                    Event.checkpointWrite ctx.streamName ctx.shardId st.lastSeqNum] } := by
  by_cases hls : st.lastSeqNum = ""
  · simp [streamStep, processBatch, h, hls]
  · simp [streamStep, processBatch, h, hls]

/-- C1, counterexample state: the durable snapshot holds token `"100"`,
then one more batch is processed (`UpdateSequenceNum "105"`) without a
flush, so `"105"` is pending in memory only. -/
def c1sm : stateman :=
  stateman.UpdateSequenceNum
    (stateman.Flush { states := [("mystream", [("shardId-000", "100")])], stateFile := [] })
    "mystream" "shardId-000" "105"

/-- C1 counterexample: after an expired-iterator error the consumer does go
back to acquiring, but the iterator request it then builds starts after
`"105"`, the token pending in the in-memory state map, not after `"100"`,
the last token persisted to durable storage — contradicting the claim that
the new iterator is positioned after the last *persisted* resume token. -/
theorem claim_C1_counterexample :
    fetchLoop "iter-0" { iter := "iter-0", events := [] }
        [Attempt.fail ErrClass.expiredIter none] =
      FetchOut.reconnect
        { iter := "iter-0", events := [Event.request "iter-0", Event.sleep 100] }
    ∧ persistedToken c1sm "mystream" "shardId-000" = some "100"
    ∧ (buildIteratorRequest c1sm "mystream" "shardId-000" "LATEST").2.StartingSequenceNumber
        = some "105"
    ∧ (buildIteratorRequest c1sm "mystream" "shardId-000" "LATEST").2.StartingSequenceNumber
        ≠ persistedToken c1sm "mystream" "shardId-000" := by
  refine ⟨by decide, by decide, by decide, by decide⟩

/-- C1 (amended): on an iterator-expired error the consumer transitions
back to Acquiring (the fetch loop exits to the reconnect loop after a 100ms
sleep), and the new iterator request is positioned `AFTER_SEQUENCE_NUMBER`
of the token currently held in the checkpoint store's shared in-memory map
— which reflects every completed batch, including tokens not yet flushed to
durable storage. -/
theorem claim_C1_amended (griIter : String) (fs : FetchState) (r : Option GetRecordsOutput)
    (sm : stateman) (stream shard ittype : String)
    (hs : (sm.GetSequenceNum stream shard).2 ≠ "") :
    fetchLoop griIter fs [Attempt.fail ErrClass.expiredIter r] =
      FetchOut.reconnect
        { iter := updIter fs.iter (resNextIter r),
          events := fs.events ++ [Event.request griIter, Event.sleep 100] }
    ∧ (buildIteratorRequest sm stream shard ittype).2 =
        { ShardIteratorType := "AFTER_SEQUENCE_NUMBER",
          StartingSequenceNumber := some (sm.GetSequenceNum stream shard).2 } := by
  constructor
  · simp [fetchLoop]
  · simp [buildIteratorRequest, hs]

/-- C1 witness: the amended theorem applied to the counterexample state. -/
theorem claim_C1_witness :
    (stateman.GetSequenceNum c1sm "mystream" "shardId-000").2 ≠ ""
    ∧ (fetchLoop "it" { iter := "it", events := [] }
          [Attempt.fail ErrClass.expiredIter none] =
        FetchOut.reconnect
          { iter := updIter "it" (resNextIter none),
            events := [] ++ [Event.request "it", Event.sleep 100] }
      ∧ (buildIteratorRequest c1sm "mystream" "shardId-000" "LATEST").2 =
          { ShardIteratorType := "AFTER_SEQUENCE_NUMBER",
            StartingSequenceNumber :=
              some (stateman.GetSequenceNum c1sm "mystream" "shardId-000").2 }) :=
  ⟨by decide, claim_C1_amended "it" { iter := "it", events := [] } none c1sm
    "mystream" "shardId-000" "LATEST" (by decide)⟩

/-- C2: within one partition, the checkpoint write for a batch happens only
after every record of the batch has been handed to the Processor (the
write event follows all processed events of the batch in the trace), the
entries handed correspond one-to-one to the batch's records, the token
written is the sequence number of the batch's last record, and after N
batches (the Nth non-empty, with a non-empty sequence number) the stored
resume token equals the last record's sequence number of the Nth batch. -/
theorem claim_C2 (ctx : ShardCtx) (st : ShardState) (bs : List GetRecordsOutput)
    (b : GetRecordsOutput) (rlast : KRecord)
    (hlast : lastRecord b.Records = some rlast)
    (hseq : rlast.SequenceNumber ≠ "") :
    (runBatches ctx st (bs ++ [b])).events =
      (runBatches ctx st bs).events
        ++ (recordEntries ctx (runBatches ctx st bs).parseTime b.Records).map Event.processed
        ++ [Event.checkpointWrite ctx.streamName ctx.shardId rlast.SequenceNumber]
    ∧ (recordEntries ctx (runBatches ctx st bs).parseTime b.Records).map Entry.Data
        = b.Records.map KRecord.Data
    ∧ alookup2 (runBatches ctx st (bs ++ [b])).sm.states ctx.streamName ctx.shardId
        = some rlast.SequenceNumber := by
  have hrun : runBatches ctx st (bs ++ [b]) = streamStep ctx (runBatches ctx st bs) b := by
    simp [runBatches, List.foldl_append]
  have hstep := streamStep_nonempty ctx (runBatches ctx st bs) b rlast hlast hseq
  refine ⟨?_, recordEntries_data ctx _ _, ?_⟩
  · rw [hrun, hstep]
  · rw [hrun, hstep]
    exact alookup2_update _ _ _ _

/-- C2 witness inputs: a fresh shard state and one batch of two records. -/
def c2ctx : ShardCtx :=
  { tagid := 7, src := none, streamName := "mystream", shardId := "shardId-000",
    entSize := fun e => e.Data.length, tg := fun _ => none }

def c2st : ShardState :=
  { parseTime := false, lastSeqNum := "", entrySize := 0,
    sm := { states := [], stateFile := [] },
    tracker := { Disabled := false, millisbehind := 0, datasize := 0,
                 entrysize := 0, requests := 0 },
    events := [] }

def c2rec : KRecord :=
  { SequenceNumber := "101", ApproximateArrivalTimestamp := { sec := 11, nsec := 0 },
    Data := [65] }

def c2rec2 : KRecord :=
  { SequenceNumber := "102", ApproximateArrivalTimestamp := { sec := 12, nsec := 0 },
    Data := [66, 67] }

def c2res : GetRecordsOutput :=
  { Records := [c2rec, c2rec2], NextShardIterator := some "iter-1",
    MillisBehindLatest := 3 }

/-- C2 witness: the theorem evaluated on one concrete two-record batch. -/
theorem claim_C2_witness :
    lastRecord c2res.Records = some c2rec2
    ∧ c2rec2.SequenceNumber ≠ ""
    ∧ ((runBatches c2ctx c2st ([] ++ [c2res])).events =
        (runBatches c2ctx c2st []).events
          ++ (recordEntries c2ctx (runBatches c2ctx c2st []).parseTime c2res.Records).map
              Event.processed
          ++ [Event.checkpointWrite c2ctx.streamName c2ctx.shardId c2rec2.SequenceNumber]
      ∧ (recordEntries c2ctx (runBatches c2ctx c2st []).parseTime c2res.Records).map
          Entry.Data = c2res.Records.map KRecord.Data
      ∧ alookup2 (runBatches c2ctx c2st ([] ++ [c2res])).sm.states
          c2ctx.streamName c2ctx.shardId = some c2rec2.SequenceNumber) :=
  ⟨by decide, by decide, claim_C2 c2ctx c2st [] c2res c2rec2 (by decide) (by decide)⟩

/-- The events one empty fetch appends: the 100ms idle sleep, followed by a
re-write of the unchanged token when a previous batch set `lastSeqNum`. -/
def idleSeg (ctx : ShardCtx) (lastSeq : String) : List Event :=
  if lastSeq = "" then [Event.sleep 100]
  else [Event.sleep 100, Event.checkpointWrite ctx.streamName ctx.shardId lastSeq]

theorem streamStep_empty_proj (ctx : ShardCtx) (st : ShardState) (res : GetRecordsOutput)
    (h : res.Records = []) :
    (streamStep ctx st res).lastSeqNum = st.lastSeqNum
    ∧ (streamStep ctx st res).events = st.events ++ idleSeg ctx st.lastSeqNum
    ∧ ((st.lastSeqNum = "" ∧ (streamStep ctx st res).sm = st.sm)
       ∨ (¬st.lastSeqNum = "" ∧ (streamStep ctx st res).sm
            = st.sm.UpdateSequenceNum ctx.streamName ctx.shardId st.lastSeqNum)) := by
  rw [streamStep_empty_eq ctx st res h]
  by_cases hls : st.lastSeqNum = ""
  · simp [hls, idleSeg]
  · simp [hls, idleSeg]

/-- C3 counterexample inputs: a shard that already processed a batch up to
sequence number `"101"` (so `lastSeqNum` is non-empty), then two empty
fetches. -/
def c3ctx : ShardCtx :=
  { tagid := 0, src := none, streamName := "mystream", shardId := "shardId-000",
    entSize := fun e => e.Data.length, tg := fun _ => none }

def c3st : ShardState :=
  { parseTime := false, lastSeqNum := "101", entrySize := 0,
    sm := { states := [("mystream", [("shardId-000", "101")])], stateFile := [] },
    tracker := { Disabled := false, millisbehind := 0, datasize := 0,
                 entrysize := 0, requests := 0 },
    events := [] }

def c3res : GetRecordsOutput :=
  { Records := [], NextShardIterator := none, MillisBehindLatest := 0 }

/-- C3 counterexample: after an earlier non-empty batch, `lastSeqNum` is
`"101"`, and each of the two empty fetches still calls
`UpdateSequenceNum` — a checkpoint write occurs, contradicting the claim
that no checkpoint write occurs between or after two empty fetches. -/
theorem claim_C3_counterexample :
    Event.checkpointWrite "mystream" "shardId-000" "101"
      ∈ (streamStep c3ctx (streamStep c3ctx c3st c3res) c3res).events := by
  decide

/-- C3 (amended): across two consecutive zero-record fetches the task
sleeps 100ms after each fetch, `lastSeqNum` and the stored token for the
partition are unchanged (no forward progress); if no record has been
received since iterator acquisition no checkpoint write occurs at all,
while after an earlier non-empty batch each empty fetch re-writes the same
unchanged token. -/
theorem claim_C3_amended (ctx : ShardCtx) (st : ShardState) (res1 res2 : GetRecordsOutput)
    (h1 : res1.Records = []) (h2 : res2.Records = [])
    (hinv : st.lastSeqNum = "" ∨
      alookup2 st.sm.states ctx.streamName ctx.shardId = some st.lastSeqNum) :
    (streamStep ctx (streamStep ctx st res1) res2).lastSeqNum = st.lastSeqNum
    ∧ (streamStep ctx (streamStep ctx st res1) res2).events =
        st.events ++ idleSeg ctx st.lastSeqNum ++ idleSeg ctx st.lastSeqNum
    ∧ alookup2 (streamStep ctx (streamStep ctx st res1) res2).sm.states
        ctx.streamName ctx.shardId
      = alookup2 st.sm.states ctx.streamName ctx.shardId := by
  obtain ⟨l1, e1, s1⟩ := streamStep_empty_proj ctx st res1 h1
  obtain ⟨l2, e2, s2⟩ := streamStep_empty_proj ctx (streamStep ctx st res1) res2 h2
  rw [l1] at l2 e2 s2
  refine ⟨l2, ?_, ?_⟩
  · simp [e2, e1, List.append_assoc]
  · rcases s1 with ⟨hls, hsm1⟩ | ⟨hls, hsm1⟩
    · rcases s2 with ⟨_, hsm2⟩ | ⟨hc, _⟩
      · rw [hsm2, hsm1]
      · exact absurd hls hc
    · rcases s2 with ⟨hc, _⟩ | ⟨_, hsm2⟩
      · exact absurd hc hls
      · rw [hsm2, alookup2_update, hinv.resolve_left hls]

/-- C3 witness: the amended theorem evaluated on the counterexample state. -/
theorem claim_C3_witness :
    c3res.Records = []
    ∧ (c3st.lastSeqNum = "" ∨
        alookup2 c3st.sm.states c3ctx.streamName c3ctx.shardId = some c3st.lastSeqNum)
    ∧ ((streamStep c3ctx (streamStep c3ctx c3st c3res) c3res).lastSeqNum = c3st.lastSeqNum
      ∧ (streamStep c3ctx (streamStep c3ctx c3st c3res) c3res).events =
          c3st.events ++ idleSeg c3ctx c3st.lastSeqNum ++ idleSeg c3ctx c3st.lastSeqNum
      ∧ alookup2 (streamStep c3ctx (streamStep c3ctx c3st c3res) c3res).sm.states
          c3ctx.streamName c3ctx.shardId
        = alookup2 c3st.sm.states c3ctx.streamName c3ctx.shardId) :=
  ⟨rfl, by decide, claim_C3_amended c3ctx c3st c3res c3res rfl rfl (by decide)⟩

theorem foldRecords_parseTime_false (ctx ctx2 : ShardCtx) (st : ShardState)
    (rs : List KRecord) (hpt : st.parseTime = false)
    (htag : ctx2.tagid = ctx.tagid) (hsrc : ctx2.src = ctx.src)
    (hes : ctx2.entSize = ctx.entSize) :
    rs.foldl (processRecord ctx2) st = rs.foldl (processRecord ctx) st := by
  rw [foldRecords_eq, foldRecords_eq, hpt, recordEntries_false, recordEntries_false,
    ptAfter_false, ptAfter_false, htag, hsrc, hes]

theorem foldRecords_events_false (ctx : ShardCtx) (st : ShardState) (rs : List KRecord)
    (hpt : st.parseTime = false) :
    (rs.foldl (processRecord ctx) st).events = st.events
      ++ rs.map (fun q => Event.processed
          { Tag := ctx.tagid, SRC := ctx.src,
            TS := q.ApproximateArrivalTimestamp, Data := q.Data }) := by
  rw [foldRecords_eq]
  simp [hpt, recordEntries_false, List.map_map, Function.comp]

theorem processBatch_parseTime (ctx : ShardCtx) (st : ShardState)
    (res : GetRecordsOutput) :
    (processBatch ctx st res).parseTime = ptAfter ctx st.parseTime res.Records := by
  unfold processBatch
  rw [foldRecords_eq]
  by_cases h : lastSeqAfter res.Records st.lastSeqNum = "" <;> simp [h]

theorem streamStep_parseTime (ctx : ShardCtx) (st : ShardState)
    (res : GetRecordsOutput) :
    (streamStep ctx st res).parseTime = ptAfter ctx st.parseTime res.Records := by
  unfold streamStep
  by_cases h : res.Records.isEmpty <;> simp [h, processBatch_parseTime]

theorem runBatches_parseTime_false (ctx : ShardCtx) (st : ShardState)
    (bs : List GetRecordsOutput) (h : st.parseTime = false) :
    (runBatches ctx st bs).parseTime = false := by
  induction bs generalizing st with
  | nil => simpa [runBatches]
  | cons b bs ih =>
    have hb : (streamStep ctx st b).parseTime = false := by
      rw [streamStep_parseTime, h, ptAfter_false]
    simpa [runBatches, List.foldl_cons] using ih (streamStep ctx st b) hb

/-- C5: once the timegrinder fails (or reports not-found) on a record of a
partition with time-parsing enabled, the parse flag flips to false, that
record's entry carries the source-provided arrival timestamp, processing of
every later record is completely independent of the extractor (any context
agreeing on the non-extractor fields produces the identical state, so the
extractor is never consulted again), every later entry of the partition
carries its arrival timestamp, and the flag stays false across all later
batches of the run. -/
theorem claim_C5 (ctx ctx2 : ShardCtx) (st : ShardState) (r : KRecord)
    (rs : List KRecord) (bs : List GetRecordsOutput)
    (hpt : st.parseTime = true) (hfail : ctx.tg r.Data = none)
    (htag : ctx2.tagid = ctx.tagid) (hsrc : ctx2.src = ctx.src)
    (hes : ctx2.entSize = ctx.entSize) :
    (processRecord ctx st r).parseTime = false
    ∧ (processRecord ctx st r).events = st.events ++
        [Event.processed
          { Tag := ctx.tagid, SRC := ctx.src,
            TS := r.ApproximateArrivalTimestamp, Data := r.Data }]
    ∧ rs.foldl (processRecord ctx2) (processRecord ctx st r)
        = rs.foldl (processRecord ctx) (processRecord ctx st r)
    ∧ (rs.foldl (processRecord ctx) (processRecord ctx st r)).events
        = (processRecord ctx st r).events
          ++ rs.map (fun q => Event.processed
              { Tag := ctx.tagid, SRC := ctx.src,
                TS := q.ApproximateArrivalTimestamp, Data := q.Data })
    ∧ (runBatches ctx (rs.foldl (processRecord ctx) (processRecord ctx st r)) bs).parseTime
        = false := by
  have hpr : (processRecord ctx st r).parseTime = false := by
    simp [processRecord, recordTS, hpt, hfail]
  have hfold : (rs.foldl (processRecord ctx) (processRecord ctx st r)).parseTime = false := by
    rw [foldRecords_eq]
    simp [hpr, ptAfter_false]
  refine ⟨hpr, ?_, ?_, ?_, ?_⟩
  · simp [processRecord, recordTS, hpt, hfail]
  · exact foldRecords_parseTime_false ctx ctx2 _ rs hpr htag hsrc hes
  · exact foldRecords_events_false ctx _ rs hpr
  · exact runBatches_parseTime_false ctx _ bs hfold

/-- C5 witness inputs: an always-failing extractor, a second context that
differs only in the extractor, one failing record and one follower. -/
def c5ctx : ShardCtx :=
  { tagid := 4, src := none, streamName := "mystream", shardId := "shardId-000",
    entSize := fun e => e.Data.length, tg := fun _ => none }

def c5ctx2 : ShardCtx :=
  { tagid := 4, src := none, streamName := "mystream", shardId := "shardId-000",
    entSize := fun e => e.Data.length, tg := fun _ => some { sec := 1, nsec := 0 } }

def c5st : ShardState :=
  { parseTime := true, lastSeqNum := "", entrySize := 0,
    sm := { states := [], stateFile := [] },
    tracker := { Disabled := false, millisbehind := 0, datasize := 0,
                 entrysize := 0, requests := 0 },
    events := [] }

def c5rec : KRecord :=
  { SequenceNumber := "201", ApproximateArrivalTimestamp := { sec := 21, nsec := 0 },
    Data := [1] }

def c5rec2 : KRecord :=
  { SequenceNumber := "202", ApproximateArrivalTimestamp := { sec := 22, nsec := 0 },
    Data := [2] }

def c5res : GetRecordsOutput :=
  { Records := [c5rec2], NextShardIterator := some "iter-2", MillisBehindLatest := 0 }

/-- C5 witness: the theorem evaluated at concrete inputs. -/
theorem claim_C5_witness :
    c5st.parseTime = true
    ∧ c5ctx.tg c5rec.Data = none
    ∧ c5ctx2.tagid = c5ctx.tagid
    ∧ c5ctx2.src = c5ctx.src
    ∧ c5ctx2.entSize = c5ctx.entSize
    ∧ ((processRecord c5ctx c5st c5rec).parseTime = false
      ∧ (processRecord c5ctx c5st c5rec).events = c5st.events ++
          [Event.processed
            { Tag := c5ctx.tagid, SRC := c5ctx.src,
              TS := c5rec.ApproximateArrivalTimestamp, Data := c5rec.Data }]
      ∧ [c5rec2].foldl (processRecord c5ctx2) (processRecord c5ctx c5st c5rec)
          = [c5rec2].foldl (processRecord c5ctx) (processRecord c5ctx c5st c5rec)
      ∧ ([c5rec2].foldl (processRecord c5ctx) (processRecord c5ctx c5st c5rec)).events
          = (processRecord c5ctx c5st c5rec).events
            ++ [c5rec2].map (fun q => Event.processed
                { Tag := c5ctx.tagid, SRC := c5ctx.src,
                  TS := q.ApproximateArrivalTimestamp, Data := q.Data })
      ∧ (runBatches c5ctx
            ([c5rec2].foldl (processRecord c5ctx) (processRecord c5ctx c5st c5rec))
            [c5res]).parseTime = false) :=
  ⟨rfl, rfl, rfl, rfl, rfl,
   claim_C5 c5ctx c5ctx2 c5st c5rec [c5rec2] [c5res] rfl rfl rfl rfl rfl⟩

/-- C6: `ReadAndReset` returns the current four counters, zeroes
`datasize` (bytes read), `entrysize` (bytes emitted) and `requests`, and
leaves `millisbehind` (the lag estimate) unchanged; a second call with no
intervening `Update` therefore returns zero for the three counters and the
same lag value. -/
theorem claim_C6 (s : shardMetrics) :
    (s.ReadAndReset).1 = (s.millisbehind, s.datasize, s.entrysize, s.requests)
    ∧ (s.ReadAndReset).2.millisbehind = s.millisbehind
    ∧ (s.ReadAndReset).2.datasize = 0
    ∧ (s.ReadAndReset).2.entrysize = 0
    ∧ (s.ReadAndReset).2.requests = 0
    ∧ ((s.ReadAndReset).2.ReadAndReset).1 = (s.millisbehind, 0, 0, 0) := by
  refine ⟨rfl, rfl, rfl, rfl, rfl, rfl⟩

/-- C7: when a `GetRecords` call fails with a throughput-exceeded error the
loop sleeps 500ms and retries while remaining in the streaming state (here:
the retry succeeds and the loop breaks with the batch rather than exiting
to the reconnect loop), and both the failed request and the retry carry the
same iterator `griIter` — the request object is not rebuilt, so the failed
call leaves the request's iterator unchanged. -/
theorem claim_C7 (griIter : String) (fs : FetchState) (r : Option GetRecordsOutput)
    (res : GetRecordsOutput) (hne : res.Records ≠ []) :
    fetchLoop griIter fs (Attempt.fail ErrClass.throughput r :: [Attempt.ok res]) =
      FetchOut.success res
        { iter := updIter (updIter fs.iter (resNextIter r)) res.NextShardIterator,
          events := fs.events ++
            [Event.request griIter, Event.sleep 500, Event.request griIter] } := by
  have hempty : res.Records.isEmpty = false := by
    cases h : res.Records with
    | nil => exact absurd h hne
    | cons a l => rfl
  simp [fetchLoop, hempty, List.append_assoc]

/-- C7 witness inputs: a one-record batch delivered on the retry. -/
def c7rec : KRecord :=
  { SequenceNumber := "101", ApproximateArrivalTimestamp := { sec := 5, nsec := 0 },
    Data := [1, 2] }

def c7res : GetRecordsOutput :=
  { Records := [c7rec], NextShardIterator := some "iter-1", MillisBehindLatest := 250 }

/-- C7 witness: the theorem evaluated at concrete inputs. -/
theorem claim_C7_witness :
    c7res.Records ≠ []
    ∧ fetchLoop "iter-0" { iter := "iter-0", events := [] }
        (Attempt.fail ErrClass.throughput none :: [Attempt.ok c7res]) =
      FetchOut.success c7res
        { iter := updIter (updIter "iter-0" (resNextIter none)) c7res.NextShardIterator,
          events := [] ++
            [Event.request "iter-0", Event.sleep 500, Event.request "iter-0"] } :=
  ⟨by decide,
   claim_C7 "iter-0" { iter := "iter-0", events := [] } none c7res (by decide)⟩

/-- C10 failing input: a stream whose only discovered shard is closed (its
sequence-number range has an ending sequence number). -/
def c10shard : KShard :=
  { ShardId := "shardId-000000000000",
    SequenceNumberRange := some { EndingSequenceNumber := some "49568917690524186" } }

/-- C10: the code evaluated at the failing input.  The shard is closed, so
no consumer goroutine is spawned and no tracker is appended; at the first
metrics tick `len(metricsTrackers)` is 0 and the reporter's
`report.AverageLag / int64(len(metricsTrackers))` is an int64 division by
zero — the claim that at least one sample is drained per tick is violated. -/
theorem claim_C10 :
    shardClosed c10shard = true
    ∧ spawnedTrackerCount [c10shard] = 0
    ∧ metricsTickDivisor [c10shard] = 0 := by
  refine ⟨rfl, rfl, rfl⟩

end KinesisIngest

namespace SqsIngest

/-- C4: if the processor accepts the entries of every message before `m`
and rejects the entry of `m`, the queue task's loop produces exactly the
trace of the earlier messages followed by the handing of `m`'s entry and
the process-error log, and aborts (`true`): the trace does not depend on
`post`, so the remaining messages of the receive batch are never handed to
the processor. -/
theorem claim_C4 (ctx : QCtx) (pre : List SqsMessage) (m : SqsMessage)
    (post : List SqsMessage)
    (hpre : allOk ctx pre = true)
    (hm : ctx.proc (mkEntry ctx m).1 = false) :
    handleMessages ctx (pre ++ m :: post) =
      (handledTrace ctx pre ++ (mkEntry ctx m).2
        ++ [QEvent.handed (mkEntry ctx m).1, QEvent.logProcessError], true) := by
  induction pre with
  | nil => simp [handleMessages, handledTrace, hm]
  | cons q qs ih =>
    have h2 := hpre
    simp only [allOk, Bool.and_eq_true] at h2
    obtain ⟨hq, hqs⟩ := h2
    simp [handleMessages, handledTrace, hq, ih hqs, List.append_assoc]

/-- C4 witness inputs: timestamps ignored, a processor that rejects exactly
the body `"bad"`, one good message, then the failing one, then one more
message that must never be handed. -/
def c4ctx : QCtx :=
  { ignoreTimestamps := true, src := none, tag := 9, now := { sec := 50, nsec := 0 },
    proc := fun e => e.Data != "bad" }

def c4good : SqsMessage := { Body := "first", Attributes := [] }

def c4bad : SqsMessage := { Body := "bad", Attributes := [] }

def c4post : SqsMessage := { Body := "later", Attributes := [] }

/-- C4 witness: the theorem evaluated at concrete inputs. -/
theorem claim_C4_witness :
    allOk c4ctx [c4good] = true
    ∧ c4ctx.proc (mkEntry c4ctx c4bad).1 = false
    ∧ handleMessages c4ctx ([c4good] ++ c4bad :: [c4post]) =
        (handledTrace c4ctx [c4good] ++ (mkEntry c4ctx c4bad).2
          ++ [QEvent.handed (mkEntry c4ctx c4bad).1, QEvent.logProcessError], true) :=
  ⟨by decide, by decide, claim_C4 c4ctx [c4good] c4bad [c4post] (by decide) (by decide)⟩

/-- C8: with `ignoreTimestamps` false, a message whose `Attributes` lack
`SentTimestamp` produces the missing-attribute log event, the entry is
still built with its timestamp left at the zero value and handed to the
processor (not dropped), and the rest of the batch is processed exactly as
it would be on its own. -/
theorem claim_C8 (ctx : QCtx) (m : SqsMessage) (rest : List SqsMessage)
    (hit : ctx.ignoreTimestamps = false)
    (hmiss : alookup m.Attributes "SentTimestamp" = none)
    (hproc : ctx.proc
      { SRC := ctx.src, TS := { sec := 0, nsec := 0 },
        Tag := ctx.tag, Data := m.Body } = true) :
    handleMessages ctx (m :: rest) =
      (QEvent.logMissingTimestamp
        :: QEvent.handed
            { SRC := ctx.src, TS := { sec := 0, nsec := 0 },
              Tag := ctx.tag, Data := m.Body }
        :: (handleMessages ctx rest).1,
       (handleMessages ctx rest).2) := by
  have hts : messageTS ctx m =
      ({ sec := 0, nsec := 0 }, [QEvent.logMissingTimestamp]) := by
    simp [messageTS, hit, hmiss]
  simp [handleMessages, mkEntry, hts, hproc]

/-- C8 witness inputs: a message without the attribute followed by one with
it; the processor accepts everything. -/
def c8ctx : QCtx :=
  { ignoreTimestamps := false, src := none, tag := 3, now := { sec := 99, nsec := 0 },
    proc := fun _ => true }

def c8miss : SqsMessage := { Body := "no-ts", Attributes := [] }

def c8rest : SqsMessage :=
  { Body := "with-ts", Attributes := [("SentTimestamp", "1700000000000")] }

/-- C8 witness: the theorem evaluated at concrete inputs. -/
theorem claim_C8_witness :
    c8ctx.ignoreTimestamps = false
    ∧ alookup c8miss.Attributes "SentTimestamp" = none
    ∧ c8ctx.proc
        { SRC := c8ctx.src, TS := { sec := 0, nsec := 0 },
          Tag := c8ctx.tag, Data := c8miss.Body } = true
    ∧ handleMessages c8ctx (c8miss :: [c8rest]) =
        (QEvent.logMissingTimestamp
          :: QEvent.handed
              { SRC := c8ctx.src, TS := { sec := 0, nsec := 0 },
                Tag := c8ctx.tag, Data := c8miss.Body }
          :: (handleMessages c8ctx [c8rest]).1,
         (handleMessages c8ctx [c8rest]).2) :=
  ⟨rfl, rfl, rfl, claim_C8 c8ctx c8miss [c8rest] rfl rfl rfl⟩

end SqsIngest

namespace KinesisIngest

/-- C9: `GetSequenceNum` on a stream absent from the state map is not
read-only: it inserts an empty inner mapping for the stream (the map
differs from before the get), a subsequent `Flush` persists a key for the
stream that was only ever read while a `Flush` of the original state would
not, and the returned token is empty. -/
theorem claim_C9 (sm : stateman) (stream shard : String)
    (h : alookup sm.states stream = none) :
    alookup (sm.GetSequenceNum stream shard).1.states stream = some []
    ∧ (sm.GetSequenceNum stream shard).1.states ≠ sm.states
    ∧ alookup ((sm.GetSequenceNum stream shard).1.Flush).stateFile stream = some []
    ∧ alookup (sm.Flush).stateFile stream = none
    ∧ (sm.GetSequenceNum stream shard).2 = "" := by
  have hget : sm.GetSequenceNum stream shard =
      ({ sm with states := aset sm.states stream [] }, "") := by
    simp [stateman.GetSequenceNum, h]
  have hne : aset sm.states stream ([] : List (String × String)) ≠ sm.states := by
    intro heq
    have hself := alookup_aset_self sm.states stream ([] : List (String × String))
    rw [heq, h] at hself
    exact Option.noConfusion hself
  refine ⟨?_, ?_, ?_, ?_, ?_⟩
  · rw [hget]
    exact alookup_aset_self _ _ _
  · rw [hget]
    exact hne
  · rw [hget]
    exact alookup_aset_self _ _ _
  · exact h
  · rw [hget]

/-- C9 witness input: an empty checkpoint store. -/
def c9sm : stateman := { states := [], stateFile := [] }

/-- C9 witness: the theorem evaluated on the empty store. -/
theorem claim_C9_witness :
    alookup c9sm.states "mystream" = none
    ∧ (alookup (c9sm.GetSequenceNum "mystream" "shardId-000").1.states "mystream" = some []
      ∧ (c9sm.GetSequenceNum "mystream" "shardId-000").1.states ≠ c9sm.states
      ∧ alookup ((c9sm.GetSequenceNum "mystream" "shardId-000").1.Flush).stateFile "mystream"
          = some []
      ∧ alookup (c9sm.Flush).stateFile "mystream" = none
      ∧ (c9sm.GetSequenceNum "mystream" "shardId-000").2 = "") :=
  ⟨rfl, claim_C9 c9sm "mystream" "shardId-000" rfl⟩

end KinesisIngest
